import Mathlib

/-!
# Verification of the non-blocking dispatch core of dbus-rs (`src/dbus/src/nonblock.rs`)

Shallow embedding of the module: the reply table, the filter table, the
dispatch engine (`process_one` / `process_all`), the oneshot future cell
(`MRInner` / `MROuter::poll` / the producer closure from `method_call_setup`),
the timeout race (`method_call_await`), `send_with_reply`, `cancel_reply`,
`request_name` reply decoding, and `unique_name`.

External collaborators of the module that live elsewhere in the repository
(`crate::channel::Channel`, `crate::channel::default_reply`,
`crate::filters::Filters`) are modelled from the spec; each such definition
carries a doc comment starting with `Modelled from the spec:`.

Modelling conventions:
* machine integers (`u32` serials, `usize` tokens) are `Nat`: the code performs
  no arithmetic on them besides `Token(x as usize)`, a widening conversion;
* callbacks: a filter callback (`FnMut(Message, &C) -> bool`) is modelled by
  the boolean it returns, a function `Message → Bool`; a reply callback
  (`FnOnce(Message, &C)`) returns nothing, so its type stays an abstract
  parameter `R` and its invocation is recorded as an event;
* side effects of dispatch (callback invocations, send attempts) are made
  observable as an explicit list of `Event`s returned next to the new state;
* a Rust panic (`Option::unwrap` on `None`) is modelled as `none`.
-/

/-- The type of a D-Bus message as far as this module inspects it:
`get_reply_serial`, the message type and the no-reply flag (consumed by
`default_reply`), sender/serial (used to address the default reply back),
and a body (only the first `u32` is read, by `request_name` decoding). -/
structure Message where
  msgType : Nat        -- 1 = method call, 2 = method return, 3 = error, 4 = signal
  serial : Nat
  sender : Option String
  destination : Option String
  replySerial : Option Nat
  expectsReply : Bool  -- negation of the NO_REPLY_EXPECTED header flag
  body : List Nat
deriving DecidableEq

/-- `msg.get_reply_serial()`. -/
def Message.get_reply_serial (m : Message) : Option Nat := m.replySerial

/-- The D-Bus error type `crate::Error`: an optional error name plus a text. -/
structure DError where
  name : Option String
  message : String
deriving DecidableEq

/-- `Error::new_failed(msg)`: a generic failure with the standard name. -/
def DError.new_failed (m : String) : DError :=
  { name := some "org.freedesktop.DBus.Error.Failed", message := m }

/-- `Error::new_custom(name, msg)`. -/
def DError.new_custom (n m : String) : DError :=
  { name := some n, message := m }

/-- Modelled from the spec: the transport handle (`crate::channel::Channel`),
§6 — `send(message) -> identifier | failure` where the identifier becomes the
correlation token, and `pop_message() -> optional message`.  `sendOk` says
whether the transport currently accepts sends, `nextSerial` is the identifier
it will assign next, `sent` logs transmitted messages, `incoming` is the queue
`pop_message` drains, and `uniqueName` is the bus-assigned identity (present
only after bus registration). -/
structure Channel where
  sendOk : Bool
  nextSerial : Nat
  sent : List Message
  incoming : List Message
  uniqueName : Option String
deriving DecidableEq

/-- Modelled from the spec: `Channel::send` (§6): on success the message is
transmitted and the assigned numeric identifier returned; on failure nothing
is transmitted and the failure is reported. -/
def Channel.send (ch : Channel) (m : Message) : Channel × Option Nat :=
  if ch.sendOk then
    ({ ch with nextSerial := ch.nextSerial + 1, sent := ch.sent ++ [m] },
     some ch.nextSerial)
  else (ch, none)

/-- Modelled from the spec: `Channel::pop_message` (§6): non-blocking, returns
the next queued incoming message if any. -/
def Channel.pop_message (ch : Channel) : Option Message × Channel :=
  match ch.incoming with
  | [] => (none, ch)
  | m :: rest => (some m, { ch with incoming := rest })

/-- The default "no handler" error reply synthesized for an unhandled method
call `m`: an error message addressed back to `m`'s sender, carrying `m`'s
serial as its reply-correlation identifier. -/
def defaultReplyMsg (m : Message) : Message :=
  { msgType := 3, serial := 0, sender := none, destination := m.sender,
    replySerial := some m.serial, expectsReply := false, body := [] }

/-- Modelled from the spec: `crate::channel::default_reply` (§4.3 step 3): for
a method call requiring a reply, synthesize a default "no handler" error reply
addressed back to the caller; for any other message, nothing. -/
def default_reply (m : Message) : Option Message :=
  if m.msgType = 1 ∧ m.expectsReply = true then some (defaultReplyMsg m)
  else none

/-- One entry of the filter table: token, match rule, callback.  The rule
(`MatchRule::matches`) and the callback are both modelled by the boolean they
produce for a message. -/
structure FilterEntry where
  token : Nat
  rule : Message → Bool
  cb : Message → Bool

/-- Modelled from the spec: the filter table (`crate::filters::Filters`),
§4.1 — an ordered collection of (token, rule, callback) entries, matched in
insertion order; `nextToken` provides fresh tokens so that no two entries
share one. -/
structure Filters where
  list : List FilterEntry
  nextToken : Nat

/-- Modelled from the spec: `Filters::add(rule, callback) -> token` (§4.1). -/
def Filters.add (fs : Filters) (r : Message → Bool) (f : Message → Bool) :
    Filters × Nat :=
  ({ list := fs.list ++ [⟨fs.nextToken, r, f⟩], nextToken := fs.nextToken + 1 },
   fs.nextToken)

/-- Modelled from the spec: `Filters::remove_matching(message)` (§4.1) —
removes and returns the first entry whose rule matches, in insertion order,
together with the remaining table, or `none` if no entry matches. -/
def removeMatching (l : List FilterEntry) (m : Message) :
    Option (FilterEntry × List FilterEntry) :=
  match l with
  | [] => none
  | e :: rest =>
    if e.rule m then some (e, rest)
    else match removeMatching rest m with
         | some (e2, rest2) => some (e2, e :: rest2)
         | none => none

/-- Modelled from the spec: `Filters::insert(entry)` (§4.1) — re-inserts a
previously removed entry under its own token, restoring its place in the
token order (the table is kept ordered by token, which coincides with
insertion order since `add` hands out increasing tokens). -/
def insertByToken (l : List FilterEntry) (e : FilterEntry) : List FilterEntry :=
  match l with
  | [] => [e]
  | x :: rest =>
    if e.token < x.token then e :: x :: rest else x :: insertByToken rest e

/-- Remove the entry with key `k` from an association list (the
`HashMap::remove` of the reply table), returning the value and the remaining
list. -/
def repliesRemove {R : Type} (l : List (Nat × R)) (k : Nat) :
    Option (R × List (Nat × R)) :=
  match l with
  | [] => none
  | (k2, v) :: rest =>
    if k2 = k then some (v, rest)
    else match repliesRemove rest k with
         | some (v2, rest2) => some (v2, (k2, v) :: rest2)
         | none => none

/-- `HashMap::insert` of the reply table: replace an existing entry for the
key, or append. -/
def repliesInsert {R : Type} (l : List (Nat × R)) (k : Nat) (v : R) :
    List (Nat × R) :=
  match l with
  | [] => [(k, v)]
  | (k2, v2) :: rest =>
    if k2 = k then (k, v) :: rest else (k2, v2) :: repliesInsert rest k v

/-- Lookup in the reply table. -/
def repliesLookup {R : Type} (l : List (Nat × R)) (k : Nat) : Option R :=
  (l.find? (fun p => p.1 == k)).map (·.2)

/-- The timer-source function `TimeoutMakerCb`, modelled as mapping a deadline
to a future; a future is `none` (never completes) or `some (t, a)`
(completes at time `t` with value `a`). -/
def TimerFn : Type := Nat → Option (Nat × Unit)

/-- The connection state shared by the three variants (`LocalConnection`,
`Connection`, `SyncConnection`): channel, filter table, reply table, optional
timer source.  The three variants differ only in locking discipline and in
thread-safety bounds on callbacks, neither of which is visible to a
sequential shallow embedding, so one state type covers all three.  `R` is the
reply-callback type. -/
structure Conn (R : Type) where
  channel : Channel
  filters : Filters
  replies : List (Nat × R)
  timeout_maker : Option TimerFn

/-- `From<Channel>`: a fresh connection around a channel, with empty tables
and no timer source. -/
def Conn.fromChannel (R : Type) (ch : Channel) : Conn R :=
  { channel := ch, filters := ⟨[], 0⟩, replies := [], timeout_maker := none }

/-- Observable side effects of dispatching one message: a reply callback
invoked with the message, a filter callback (identified by its token) invoked
with the message, or an attempt to send a message on the channel. -/
inductive Event (R : Type) where
  | replyCb (cb : R) (m : Message)
  | filterCb (e : FilterEntry) (m : Message)
  | sendAttempt (m : Message)

/-- The filter-and-default-reply part of `process_one` (its second half):
`remove_matching`, invoke, re-insert iff the callback returned `true`;
otherwise try `default_reply` and send it, ignoring the send result
(`let _ = self.send(reply)`). -/
def process_filters {R : Type} (c : Conn R) (msg : Message) :
    Conn R × List (Event R) :=
  match removeMatching c.filters.list msg with
  | some (ff, rest) =>
    if ff.cb msg then
      ({ c with filters := { c.filters with list := insertByToken rest ff } },
       [Event.filterCb ff msg])
    else
      ({ c with filters := { c.filters with list := rest } },
       [Event.filterCb ff msg])
  | none =>
    match default_reply msg with
    | some reply =>
      ({ c with channel := (Channel.send c.channel reply).1 },
       [Event.sendAttempt reply])
    | none => (c, [])

/-- `Process::process_one` (as generated by `connimpl!` for each variant):
if the message carries a reply serial matching a reply-table entry, remove
and invoke that callback and return; otherwise fall through to filter
matching and the default reply. -/
def process_one {R : Type} (c : Conn R) (msg : Message) :
    Conn R × List (Event R) :=
  match msg.get_reply_serial with
  | some serial =>
    match repliesRemove c.replies serial with
    | some (f, rest) => ({ c with replies := rest }, [Event.replyCb f msg])
    | none => process_filters c msg
  | none => process_filters c msg

/-- Dispatch a list of messages in order, threading the state and
concatenating the events. -/
def processList {R : Type} (c : Conn R) (msgs : List Message) :
    Conn R × List (Event R) :=
  match msgs with
  | [] => (c, [])
  | m :: rest =>
    let p := process_one c m
    let q := processList p.1 rest
    (q.1, p.2 ++ q.2)

/-- `Process::process_all`: repeatedly `pop_message` from the channel until
none remain, dispatching each popped message via `process_one`.  Dispatching
never enqueues into `incoming`, so the drain processes exactly the messages
queued at entry, in order. -/
def process_all {R : Type} (c : Conn R) : Conn R × List (Event R) :=
  processList { c with channel := { c.channel with incoming := [] } }
    c.channel.incoming

/-- `NonblockReply::send_with_reply`: send the message; on success, register
the callback in the reply table under `Token(serial)` and return the token;
on failure, change nothing and report failure. -/
def send_with_reply {R : Type} (c : Conn R) (msg : Message) (f : R) :
    Conn R × Option Nat :=
  match Channel.send c.channel msg with
  | (ch, some x) =>
    ({ c with channel := ch, replies := repliesInsert c.replies x f }, some x)
  | (ch, none) => ({ c with channel := ch }, none)

/-- `NonblockReply::cancel_reply(id)`: `self.replies_mut().remove(&id)` —
remove and return the entry, never invoking it. -/
def cancel_reply {R : Type} (c : Conn R) (id : Nat) : Conn R × Option R :=
  match repliesRemove c.replies id with
  | some (f, rest) => ({ c with replies := rest }, some f)
  | none => (c, none)

/-- `unique_name`: the code is `self.channel.unique_name().unwrap().into()`;
the `unwrap` panics when the channel reports no unique name, modelled as
`none`. -/
def unique_name {R : Type} (c : Conn R) : Option String :=
  match c.channel.uniqueName with
  | some n => some n
  | none => none

/-- The oneshot cell `MRInner`: tri-state — result stored (`Ready`), consumer
parked with a waker (`Pending`, the waker modelled by a numeric id), or
`Neither`. -/
inductive MRInner where
  | Ready (r : Except DError Message)
  | Pending (w : Nat)
  | Neither

/-- One operation on the cell: the producer closure firing with a delivered
message, or a consumer poll carrying the current waker. -/
inductive MROp where
  | produce (m : Message)
  | poll (w : Nat)
deriving DecidableEq

/-- The outcome a single poll reports. -/
inductive PollRes where
  | ready (r : Except DError Message)
  | pending

/-- One step on the cell, returning the new cell contents, the poll outcome
(when the op was a poll) and the list of wakers woken (when the op was a
produce).  The produce branch is the closure built in `method_call_setup`:
`mem::replace(&mut *inner, MRInner::Ready(Ok(msg)))`, then wake if the old
state was `Pending`.  The poll branch is `MROuter::poll`:
`mem::replace(&mut *inner, MRInner::Neither)`; if that was `Ready r`, report
ready with `r`; otherwise store `Pending(waker)` and report pending. -/
def mrStep (s : MRInner) : MROp → MRInner × Option PollRes × List Nat
  | MROp.produce m =>
    (MRInner.Ready (Except.ok m), none,
     match s with
     | MRInner.Pending w => [w]
     | _ => [])
  | MROp.poll w =>
    match s with
    | MRInner.Ready r => (MRInner.Neither, some (PollRes.ready r), [])
    | _ => (MRInner.Pending w, some PollRes.pending, [])

/-- Run a sequence of operations on the cell, collecting the poll outcomes in
order. -/
def mrRun (s : MRInner) : List MROp → MRInner × List PollRes
  | [] => (s, [])
  | op :: ops =>
    let p := mrStep s op
    let q := mrRun p.1 ops
    (q.1, p.2.1.toList ++ q.2)

/-- The data `method_call_await` receives (`MRAwait`): the oneshot future
(modelled, like all futures here, by its completion time and value, or `none`
for never), the send outcome, the absolute deadline, and the optional timer
source read off the connection. -/
structure MRAwaitM where
  mrouter : Option (Nat × Except DError Message)
  token : Option Nat
  timeout : Nat
  timeoutfn : Option TimerFn

/-- `futures::future::select`: whichever of the two futures completes first
wins; on a tie the left (polled first) wins; if neither ever completes,
neither does the select. -/
def selectF {A B : Type} (l : Option (Nat × A)) (r : Option (Nat × B)) :
    Option (Nat × (A ⊕ B)) :=
  match l, r with
  | some (tl, a), some (tr, b) =>
    if tl ≤ tr then some (tl, Sum.inl a) else some (tr, Sum.inr b)
  | some (tl, a), none => some (tl, Sum.inl a)
  | none, some (tr, b) => some (tr, Sum.inr b)
  | none, none => none

/-- The distinguished send-failure error of `method_call_await`. -/
def failedToSend : DError := DError.new_failed "Failed to send message"

/-- The distinguished timeout error of `method_call_await`. -/
def timeoutError : DError :=
  DError.new_custom "org.freedesktop.DBus.Error.Timeout" "Timeout waiting for reply"

/-- `method_call_await`: if the send failed, resolve immediately (time 0)
with the send-failure error, before any timer is created; otherwise build the
timer from the timer source if one is configured — else substitute
`future::pending()`, which never completes — and race it against the oneshot
future: left winner propagates its result, right winner yields the timeout
error. -/
def method_call_await (mra : MRAwaitM) : Option (Nat × Except DError Message) :=
  match mra.token with
  | none => some (0, Except.error failedToSend)
  | some _ =>
    let timer : Option (Nat × Unit) :=
      match mra.timeoutfn with
      | some tfn => tfn mra.timeout
      | none => none
    match selectF mra.mrouter timer with
    | some (t, Sum.inl r) => some (t, r)
    | some (t, Sum.inr _) => some (t, Except.error timeoutError)
    | none => none

/-- `stdintf::org_freedesktop_dbus::RequestNameReply`. -/
inductive RequestNameReply where
  | PrimaryOwner
  | InQueue
  | Exists
  | AlreadyOwner
deriving DecidableEq

/-- The discriminant values of `RequestNameReply` (`** x as u32`). -/
def RequestNameReply.toU32 : RequestNameReply → Nat
  | RequestNameReply.PrimaryOwner => 1
  | RequestNameReply.InQueue => 2
  | RequestNameReply.Exists => 3
  | RequestNameReply.AlreadyOwner => 4

/-- The decoding step of `request_name`, applied to the numeric code `r` the
proxy call returned:
`all.iter().find(|x| **x as u32 == r).copied().ok_or_else(new_failed(...))`
with `all = [PrimaryOwner, InQueue, Exists, AlreadyOwner]`.  (The generated
proxy that produces `r` is code outside this module, abstracted away.) -/
def request_name_decode (r : Nat) : Except DError RequestNameReply :=
  match [RequestNameReply.PrimaryOwner, RequestNameReply.InQueue,
         RequestNameReply.Exists, RequestNameReply.AlreadyOwner].find?
        (fun x => x.toU32 == r) with
  | some x => Except.ok x
  | none => Except.error (DError.new_failed "Invalid reply from DBus server")

/-! ## Helper lemmas about the reply table -/

theorem repliesRemove_split {R : Type} (pre post : List (Nat × R)) (s : Nat)
    (f : R) (hpre : ∀ p ∈ pre, p.1 ≠ s) :
    repliesRemove (pre ++ (s, f) :: post) s = some (f, pre ++ post) := by
  induction pre with
  | nil => simp [repliesRemove]
  | cons p rest ih =>
    obtain ⟨k, v⟩ := p
    have hk : k ≠ s := hpre (k, v) (List.mem_cons_self _ _)
    simp only [List.cons_append, repliesRemove, List.append_eq]
    rw [if_neg hk, ih (fun q hq => hpre q (List.mem_cons_of_mem _ hq))]

theorem repliesRemove_of_absent {R : Type} {l : List (Nat × R)} {k : Nat}
    (h : ∀ p ∈ l, p.1 ≠ k) : repliesRemove l k = none := by
  induction l with
  | nil => rfl
  | cons p rest ih =>
    obtain ⟨k2, v⟩ := p
    have hk : k2 ≠ k := h (k2, v) (List.mem_cons_self _ _)
    simp only [repliesRemove]
    rw [if_neg hk, ih (fun q hq => h q (List.mem_cons_of_mem _ hq))]

theorem repliesLookup_eq_none_iff {R : Type} {l : List (Nat × R)} {k : Nat} :
    repliesLookup l k = none ↔ ∀ p ∈ l, p.1 ≠ k := by
  simp [repliesLookup, List.find?_eq_none]

/-! ## C1: reply delivery takes strict priority over filter matching -/

/-- C1: if the dispatched message carries a reply serial `s` and the reply
table holds an entry `(s, cb)` (the token being the serial itself), then
`process_one` removes exactly that entry (everything else in the state —
remaining reply entries, the whole filter table, the channel — is untouched),
invokes the callback once with the message (the single recorded event), and
returns without consulting the filter table or sending a default reply. -/
theorem C1_reply_priority {R : Type} (c : Conn R) (msg : Message) (s : Nat)
    (cb : R) (pre post : List (Nat × R))
    (hser : msg.replySerial = some s)
    (htab : c.replies = pre ++ (s, cb) :: post)
    (hpre : ∀ p ∈ pre, p.1 ≠ s) :
    process_one c msg =
      ({ c with replies := pre ++ post }, [Event.replyCb cb msg]) := by
  have hrem : repliesRemove c.replies s = some (cb, pre ++ post) := by
    rw [htab]; exact repliesRemove_split pre post s cb hpre
  simp [process_one, Message.get_reply_serial, hser, hrem]

/-- Witness for C1 at a concrete connection and message. -/
theorem C1_reply_priority_witness :
    process_one
      ({ channel := ⟨true, 1, [], [], none⟩, filters := ⟨[], 0⟩,
         replies := [(5, 42)], timeout_maker := none } : Conn Nat)
      { msgType := 2, serial := 9, sender := none, destination := none,
        replySerial := some 5, expectsReply := false, body := [] } =
      ({ channel := ⟨true, 1, [], [], none⟩, filters := ⟨[], 0⟩,
         replies := [], timeout_maker := none },
       [Event.replyCb 42
         { msgType := 2, serial := 9, sender := none, destination := none,
           replySerial := some 5, expectsReply := false, body := [] }]) :=
  C1_reply_priority _ _ 5 42 [] [] rfl rfl (by simp)

/-! ## C6: a failed send registers nothing and fails fast -/

/-- C6: when the transport refuses the send, `send_with_reply` returns the
connection completely unchanged (in particular no reply-table entry is
created) together with the failure; and `method_call_await` on a failed
token resolves immediately with the "Failed to send message" error, whatever
the timer source is — the result is the same for every `timeoutfn`, so the
timer source is never invoked and no timer race is registered. -/
theorem C6_send_failure {R : Type} (c : Conn R) (msg : Message) (f : R)
    (hfail : c.channel.sendOk = false) :
    send_with_reply c msg f = (c, none)
    ∧ (∀ rf t tfn,
        method_call_await { mrouter := rf, token := none, timeout := t,
                            timeoutfn := tfn } =
          some (0, Except.error failedToSend)) := by
  constructor
  · simp [send_with_reply, Channel.send, hfail]
  · intro rf t tfn; rfl

/-- Witness for C6 at a concrete connection with a refusing transport. -/
theorem C6_send_failure_witness :
    send_with_reply
      ({ channel := ⟨false, 1, [], [], none⟩, filters := ⟨[], 0⟩,
         replies := [], timeout_maker := none } : Conn Nat)
      { msgType := 1, serial := 0, sender := none, destination := none,
        replySerial := none, expectsReply := true, body := [] } 7 =
      ({ channel := ⟨false, 1, [], [], none⟩, filters := ⟨[], 0⟩,
         replies := [], timeout_maker := none }, none)
    ∧ (∀ rf t tfn,
        method_call_await { mrouter := rf, token := none, timeout := t,
                            timeoutfn := tfn } =
          some (0, Except.error failedToSend)) :=
  C6_send_failure _ _ 7 rfl

/-! ## C7: request_name reply decoding -/

/-- C7: the numeric codes 1–4 of a `request_name` reply decode to
`PrimaryOwner`, `InQueue`, `Exists` and `AlreadyOwner` respectively, and any
code outside {1,2,3,4} decodes to the generic failure
"Invalid reply from DBus server". -/
theorem C7_request_name_decode :
    request_name_decode 1 = Except.ok RequestNameReply.PrimaryOwner
    ∧ request_name_decode 2 = Except.ok RequestNameReply.InQueue
    ∧ request_name_decode 3 = Except.ok RequestNameReply.Exists
    ∧ request_name_decode 4 = Except.ok RequestNameReply.AlreadyOwner
    ∧ ∀ r : Nat, r ≠ 1 → r ≠ 2 → r ≠ 3 → r ≠ 4 →
        request_name_decode r =
          Except.error (DError.new_failed "Invalid reply from DBus server") := by
  refine ⟨rfl, rfl, rfl, rfl, ?_⟩
  intro r h1 h2 h3 h4
  have e1 : (RequestNameReply.toU32 RequestNameReply.PrimaryOwner == r) = false := by
    simp [RequestNameReply.toU32]; omega
  have e2 : (RequestNameReply.toU32 RequestNameReply.InQueue == r) = false := by
    simp [RequestNameReply.toU32]; omega
  have e3 : (RequestNameReply.toU32 RequestNameReply.Exists == r) = false := by
    simp [RequestNameReply.toU32]; omega
  have e4 : (RequestNameReply.toU32 RequestNameReply.AlreadyOwner == r) = false := by
    simp [RequestNameReply.toU32]; omega
  simp [request_name_decode, List.find?, e1, e2, e3, e4]

/-! ## C9: process_all with no pending message is side-effect-free -/

/-- C9: when the transport has no queued incoming message, `process_all`
returns the connection unchanged (reply table, filter table and channel all
identical) and records no event: no callback runs and nothing is sent. -/
theorem C9_process_all_idle {R : Type} (c : Conn R)
    (h : c.channel.incoming = []) : process_all c = (c, []) := by
  obtain ⟨ch, fs, rp, tm⟩ := c
  obtain ⟨so, ns, st, inc, un⟩ := ch
  simp only [Channel.incoming] at h
  subst h
  rfl

/-- Witness for C9 at a concrete idle connection. -/
theorem C9_process_all_idle_witness :
    process_all
      ({ channel := ⟨true, 3, [], [], some ":1.54"⟩, filters := ⟨[], 0⟩,
         replies := [(1, 0)], timeout_maker := none } : Conn Nat) =
      ({ channel := ⟨true, 3, [], [], some ":1.54"⟩, filters := ⟨[], 0⟩,
         replies := [(1, 0)], timeout_maker := none }, []) :=
  C9_process_all_idle _ rfl

/-! ## C10: unique_name unwraps the optional bus name -/

/-- C10: `unique_name` is `self.channel.unique_name().unwrap().into()`: on a
connection whose channel reports no unique name the unwrap panics (modelled
as `none`), and it returns the name exactly when the channel has completed
bus registration and holds one. -/
theorem C10_unique_name_unwrap {R : Type} (c : Conn R) :
    (c.channel.uniqueName = none → unique_name c = none)
    ∧ ∀ n, c.channel.uniqueName = some n → unique_name c = some n := by
  constructor
  · intro h; simp [unique_name, h]
  · intro n h; simp [unique_name, h]

/-- Witness for C10: a freshly wrapped, unregistered channel panics; a
registered one returns its name. -/
theorem C10_unique_name_unwrap_witness :
    unique_name (Conn.fromChannel Nat ⟨true, 1, [], [], none⟩) = none
    ∧ unique_name
        ({ channel := ⟨true, 1, [], [], some ":1.54"⟩, filters := ⟨[], 0⟩,
           replies := [], timeout_maker := none } : Conn Nat) = some ":1.54" :=
  ⟨(C10_unique_name_unwrap _).1 rfl, (C10_unique_name_unwrap _).2 ":1.54" rfl⟩

/-- Witness for C7 at the concrete out-of-range code 7. -/
theorem C7_request_name_decode_witness :
    request_name_decode 7 =
      Except.error (DError.new_failed "Invalid reply from DBus server") :=
  C7_request_name_decode.2.2.2.2 7 (by decide) (by decide) (by decide) (by decide)

/-- A sample incoming method-return message used by concrete witnesses. -/
def sampleReturn : Message :=
  { msgType := 2, serial := 9, sender := some ":1.7", destination := none,
    replySerial := some 5, expectsReply := false, body := [1] }

/-! ## C3: the timeout race -/

/-- C3: for an awaited method call whose send succeeded: if the oneshot reply
future completes strictly before the timer, `method_call_await` resolves with
the reply's result; if the timer completes strictly first (including when the
reply never completes), it resolves with the distinguished timeout error
`org.freedesktop.DBus.Error.Timeout`; and when no timer source is configured
the never-completing `future::pending()` is substituted, so the outcome is
exactly the reply future's outcome — in particular the call never resolves
with a timeout error. -/
theorem C3_timeout_race (mra : MRAwaitM) (tk : Nat) (htk : mra.token = some tk) :
    (∀ tr r tfn tt, mra.mrouter = some (tr, r) → mra.timeoutfn = some tfn →
        tfn mra.timeout = some (tt, ()) → tr < tt →
        method_call_await mra = some (tr, r))
    ∧ (∀ tfn tt, mra.timeoutfn = some tfn → tfn mra.timeout = some (tt, ()) →
        (mra.mrouter = none ∨ ∃ tr r, mra.mrouter = some (tr, r) ∧ tt < tr) →
        method_call_await mra = some (tt, Except.error timeoutError))
    ∧ (mra.timeoutfn = none → method_call_await mra = mra.mrouter) := by
  refine ⟨?_, ?_, ?_⟩
  · intro tr r tfn tt hmr htf htt hlt
    simp [method_call_await, htk, htf, htt, hmr, selectF, Nat.le_of_lt hlt]
  · intro tfn tt htf htt hc
    rcases hc with hmr | ⟨tr, r, hmr, hlt⟩
    · simp [method_call_await, htk, htf, htt, hmr, selectF]
    · simp [method_call_await, htk, htf, htt, hmr, selectF, Nat.not_le.mpr hlt]
  · intro htf
    cases hmr : mra.mrouter with
    | none => simp [method_call_await, htk, htf, hmr, selectF]
    | some p =>
      obtain ⟨t, r⟩ := p
      simp [method_call_await, htk, htf, hmr, selectF]

/-- Witness for C3: a reply at time 3 beats a deadline of 10; a reply at
time 12 loses to it; with no timer source the late reply still wins. -/
theorem C3_timeout_race_witness :
    method_call_await
      { mrouter := some (3, Except.ok sampleReturn), token := some 1,
        timeout := 10, timeoutfn := some (fun d => some (d, ())) } =
      some (3, Except.ok sampleReturn)
    ∧ method_call_await
      { mrouter := some (12, Except.ok sampleReturn), token := some 1,
        timeout := 10, timeoutfn := some (fun d => some (d, ())) } =
      some (10, Except.error timeoutError)
    ∧ method_call_await
      { mrouter := some (12, Except.ok sampleReturn), token := some 1,
        timeout := 10, timeoutfn := none } =
      some (12, Except.ok sampleReturn) :=
  ⟨(C3_timeout_race _ 1 rfl).1 3 (Except.ok sampleReturn) _ 10 rfl rfl rfl
      (by decide),
   (C3_timeout_race _ 1 rfl).2.1 _ 10 rfl rfl
      (Or.inr ⟨12, Except.ok sampleReturn, rfl, by decide⟩),
   (C3_timeout_race _ 1 rfl).2.2 rfl⟩

/-! ## C8: cancellation removes without invoking -/

/-- C8: `cancel_reply id` removes and returns the reply-table entry under
`id` without invoking it (the callback is handed back unrun and no event is
produced — `cancel_reply` does not even receive the means to invoke it), and
leaves everything else in the state untouched; when no entry for `id` exists
it returns `none` and the whole state is unchanged; and after a successful
cancellation a lookup for `id` — what a subsequently arriving reply carrying
that serial would do — finds no entry. -/
theorem C8_cancel_reply {R : Type} (c : Conn R) (id : Nat) :
    (∀ pre f post, c.replies = pre ++ (id, f) :: post →
      (∀ p ∈ pre, p.1 ≠ id) → (∀ p ∈ post, p.1 ≠ id) →
      cancel_reply c id = ({ c with replies := pre ++ post }, some f)
      ∧ repliesLookup (pre ++ post) id = none)
    ∧ (repliesLookup c.replies id = none → cancel_reply c id = (c, none)) := by
  constructor
  · intro pre f post htab hpre hpost
    have hrem : repliesRemove c.replies id = some (f, pre ++ post) := by
      rw [htab]; exact repliesRemove_split pre post id f hpre
    refine ⟨by simp [cancel_reply, hrem], ?_⟩
    refine repliesLookup_eq_none_iff.mpr ?_
    intro p hp
    rcases List.mem_append.mp hp with h | h
    · exact hpre p h
    · exact hpost p h
  · intro hl
    have habs := repliesLookup_eq_none_iff.mp hl
    simp [cancel_reply, repliesRemove_of_absent habs]

/-- Witness for C8: cancelling token 7 out of a two-entry table, and
cancelling an absent token 9. -/
theorem C8_cancel_reply_witness :
    (cancel_reply
      ({ channel := ⟨true, 1, [], [], none⟩, filters := ⟨[], 0⟩,
         replies := [(4, 10), (7, 20)], timeout_maker := none } : Conn Nat) 7 =
      ({ channel := ⟨true, 1, [], [], none⟩, filters := ⟨[], 0⟩,
         replies := [(4, 10)] ++ [], timeout_maker := none }, some 20)
     ∧ repliesLookup ([(4, 10)] ++ ([] : List (Nat × Nat))) 7 = none)
    ∧ cancel_reply
      ({ channel := ⟨true, 1, [], [], none⟩, filters := ⟨[], 0⟩,
         replies := [(4, 10)], timeout_maker := none } : Conn Nat) 9 =
      ({ channel := ⟨true, 1, [], [], none⟩, filters := ⟨[], 0⟩,
         replies := [(4, 10)], timeout_maker := none }, none) :=
  ⟨(C8_cancel_reply _ 7).1 [(4, 10)] 20 [] rfl (by decide) (by decide),
   (C8_cancel_reply _ 9).2 (by decide)⟩

/-! ## C5: unmatched reply-demanding calls get exactly one default reply -/

/-- C5: for a message that hits no reply-table entry and matches no filter
and is a method call demanding a reply, `process_one` attempts exactly one
send: the default error reply, addressed back to the caller (destination =
the message's sender, reply serial = the message's serial).  Both tables are
left untouched, and the outcome is the same whether the transport accepts the
send (the reply is appended to the transmitted messages) or refuses it
(nothing is transmitted): the failure is absorbed, `process_one` returns
normally in both cases and never propagates a send error. -/
theorem C5_default_reply {R : Type} (c : Conn R) (msg : Message)
    (hnorep : ∀ s, msg.replySerial = some s → repliesRemove c.replies s = none)
    (hnof : removeMatching c.filters.list msg = none)
    (hcall : msg.msgType = 1) (hexp : msg.expectsReply = true) :
    default_reply msg = some (defaultReplyMsg msg)
      ∧ (defaultReplyMsg msg).destination = msg.sender
      ∧ (defaultReplyMsg msg).replySerial = some msg.serial
      ∧ process_one c msg =
          ({ c with channel := (Channel.send c.channel (defaultReplyMsg msg)).1 },
           [Event.sendAttempt (defaultReplyMsg msg)])
      ∧ (Channel.send c.channel (defaultReplyMsg msg)).1.sent =
          c.channel.sent ++
            (if c.channel.sendOk then [defaultReplyMsg msg] else [])
      ∧ (process_one c msg).1.replies = c.replies
      ∧ (process_one c msg).1.filters.list = c.filters.list := by
  have hdef : default_reply msg = some (defaultReplyMsg msg) := by
    simp [default_reply, hcall, hexp]
  have hpf : process_filters c msg =
      ({ c with channel := (Channel.send c.channel (defaultReplyMsg msg)).1 },
       [Event.sendAttempt (defaultReplyMsg msg)]) := by
    simp [process_filters, hnof, hdef]
  have hpo : process_one c msg =
      ({ c with channel := (Channel.send c.channel (defaultReplyMsg msg)).1 },
       [Event.sendAttempt (defaultReplyMsg msg)]) := by
    cases hs : msg.get_reply_serial with
    | none => simp [process_one, hs, hpf]
    | some s =>
      have hn := hnorep s hs
      simp [process_one, hs, hn, hpf]
  refine ⟨hdef, rfl, rfl, hpo, ?_, ?_, ?_⟩
  · cases hso : c.channel.sendOk <;> simp [Channel.send, hso]
  · rw [hpo]
  · rw [hpo]

/-- A sample unhandled method call expecting a reply, used by witnesses. -/
def sampleCall : Message :=
  { msgType := 1, serial := 4, sender := some ":1.9",
    destination := some ":1.2", replySerial := none, expectsReply := true,
    body := [] }

/-- A sample connection with empty tables, used by witnesses. -/
def sampleConn : Conn Nat :=
  { channel := ⟨true, 1, [], [], none⟩, filters := ⟨[], 0⟩, replies := [],
    timeout_maker := none }

/-- Witness for C5: an unmatched method call expecting a reply, dispatched on
a connection with empty tables. -/
theorem C5_default_reply_witness :
    default_reply sampleCall = some (defaultReplyMsg sampleCall)
    ∧ (defaultReplyMsg sampleCall).destination = sampleCall.sender
    ∧ (defaultReplyMsg sampleCall).replySerial = some sampleCall.serial
    ∧ process_one sampleConn sampleCall =
        ({ sampleConn with
           channel :=
             (Channel.send sampleConn.channel (defaultReplyMsg sampleCall)).1 },
         [Event.sendAttempt (defaultReplyMsg sampleCall)])
    ∧ (Channel.send sampleConn.channel (defaultReplyMsg sampleCall)).1.sent =
        sampleConn.channel.sent ++
          (if sampleConn.channel.sendOk then [defaultReplyMsg sampleCall]
           else [])
    ∧ (process_one sampleConn sampleCall).1.replies = sampleConn.replies
    ∧ (process_one sampleConn sampleCall).1.filters.list =
        sampleConn.filters.list :=
  C5_default_reply sampleConn sampleCall (by intro s h; cases h) rfl rfl rfl

/-! ## C2: the oneshot cell delivers exactly once -/

/-- The cell state after a sequence of consumer polls with wakers `ws`,
starting from a waiting (`Neither` or `Pending`) state. -/
def pollFinal (s : MRInner) : List Nat → MRInner
  | [] => s
  | w :: ws => pollFinal (MRInner.Pending w) ws

theorem mrStep_poll_waiting (s : MRInner) (w : Nat)
    (h : s = MRInner.Neither ∨ ∃ w0, s = MRInner.Pending w0) :
    mrStep s (MROp.poll w) = (MRInner.Pending w, some PollRes.pending, []) := by
  rcases h with h | ⟨w0, h⟩ <;> subst h <;> rfl

theorem pollFinal_waiting (ws : List Nat) (s : MRInner)
    (h : s = MRInner.Neither ∨ ∃ w0, s = MRInner.Pending w0) :
    pollFinal s ws = MRInner.Neither
    ∨ ∃ w0, pollFinal s ws = MRInner.Pending w0 := by
  induction ws generalizing s with
  | nil => exact h
  | cons w ws ih => exact ih (MRInner.Pending w) (Or.inr ⟨w, rfl⟩)

theorem mrRun_polls (ws : List Nat) (s : MRInner)
    (h : s = MRInner.Neither ∨ ∃ w0, s = MRInner.Pending w0) :
    mrRun s (ws.map MROp.poll) =
      (pollFinal s ws, ws.map fun _ => PollRes.pending) := by
  induction ws generalizing s with
  | nil => rfl
  | cons w ws ih =>
    simp only [List.map_cons, mrRun, mrStep_poll_waiting s w h,
      ih (MRInner.Pending w) (Or.inr ⟨w, rfl⟩), pollFinal, Option.toList,
      List.singleton_append]

theorem mrRun_ready_polls (r : Except DError Message) (ws : List Nat) :
    (mrRun (MRInner.Ready r) (ws.map MROp.poll)).2 =
      match ws with
      | [] => []
      | _ :: rest => PollRes.ready r :: rest.map fun _ => PollRes.pending := by
  cases ws with
  | nil => rfl
  | cons w rest =>
    have hq := mrRun_polls rest MRInner.Neither (Or.inl rfl)
    simp [mrRun, mrStep, hq]

theorem mrRun_append (s : MRInner) (l1 l2 : List MROp) :
    mrRun s (l1 ++ l2) =
      ((mrRun (mrRun s l1).1 l2).1,
       (mrRun s l1).2 ++ (mrRun (mrRun s l1).1 l2).2) := by
  induction l1 generalizing s with
  | nil => simp [mrRun]
  | cons op ops ih =>
    simp [mrRun, ih (mrStep s op).1, List.append_assoc]

/-- Does a poll outcome report completion? -/
def isReadyRes : PollRes → Bool
  | PollRes.ready _ => true
  | PollRes.pending => false

theorem countP_pending (ws : List Nat) :
    ((ws.map fun _ => PollRes.pending).countP isReadyRes) = 0 := by
  induction ws with
  | nil => rfl
  | cons w ws ih => simp [List.countP_cons, isReadyRes, ih]

/-- C2: the oneshot cell.  (1) A producer invocation swaps the cell to ready
with the delivered message, and (2) it wakes a waker precisely when the prior
state was armed (`Pending`).  (3) In a run from the initial empty cell that
interleaves one producer write between any consumer polls, the polls before
the write all report pending, the first poll after the write reports ready
carrying the stored `Ok(message)`, and every later poll reports pending —
(4) so with at least one poll after the write, exactly one poll in the whole
run reports a completion: never a second one. -/
theorem C2_oneshot (m : Message) (s : MRInner) (pres posts : List Nat) :
    mrStep s (MROp.produce m) =
      (MRInner.Ready (Except.ok m), none,
       match s with
       | MRInner.Pending w => [w]
       | _ => [])
    ∧ ((mrStep s (MROp.produce m)).2.2 ≠ [] ↔ ∃ w, s = MRInner.Pending w)
    ∧ (mrRun MRInner.Neither
        (pres.map MROp.poll ++ MROp.produce m :: posts.map MROp.poll)).2 =
      (pres.map fun _ => PollRes.pending) ++
        (match posts with
         | [] => []
         | _ :: rest => PollRes.ready (Except.ok m) ::
             rest.map fun _ => PollRes.pending)
    ∧ (posts ≠ [] →
       ((mrRun MRInner.Neither
          (pres.map MROp.poll ++ MROp.produce m :: posts.map MROp.poll)).2.countP
         isReadyRes) = 1) := by
  have h1 := mrRun_polls pres MRInner.Neither (Or.inl rfl)
  have hrun : (mrRun MRInner.Neither
      (pres.map MROp.poll ++ MROp.produce m :: posts.map MROp.poll)).2 =
      (pres.map fun _ => PollRes.pending) ++
        (match posts with
         | [] => []
         | _ :: rest => PollRes.ready (Except.ok m) ::
             rest.map fun _ => PollRes.pending) := by
    rw [mrRun_append, h1]
    simp only [mrRun, mrStep]
    rw [mrRun_ready_polls]
    simp
  refine ⟨rfl, ?_, hrun, ?_⟩
  · cases s <;> simp [mrStep]
  · intro hne
    rw [hrun]
    cases posts with
    | nil => exact absurd rfl hne
    | cons w rest =>
      rw [List.countP_append, countP_pending]
      simp [List.countP_cons, isReadyRes, countP_pending]

/-- Witness for C2: producer firing on an armed cell wakes waker 7; a run
with one poll before the write and two after delivers exactly one ready. -/
theorem C2_oneshot_witness :
    mrStep (MRInner.Pending 7) (MROp.produce sampleReturn) =
      (MRInner.Ready (Except.ok sampleReturn), none, [7])
    ∧ ((mrStep (MRInner.Pending 7) (MROp.produce sampleReturn)).2.2 ≠ [] ↔
        ∃ w, MRInner.Pending 7 = MRInner.Pending w)
    ∧ (mrRun MRInner.Neither
        ([1].map MROp.poll ++
          MROp.produce sampleReturn :: [2, 3].map MROp.poll)).2 =
      ([1].map fun _ => PollRes.pending) ++
        (PollRes.ready (Except.ok sampleReturn) ::
          [3].map fun _ => PollRes.pending)
    ∧ ((mrRun MRInner.Neither
        ([1].map MROp.poll ++
          MROp.produce sampleReturn :: [2, 3].map MROp.poll)).2.countP
        isReadyRes) = 1 :=
  ⟨(C2_oneshot sampleReturn (MRInner.Pending 7) [1] [2, 3]).1,
   (C2_oneshot sampleReturn (MRInner.Pending 7) [1] [2, 3]).2.1,
   (C2_oneshot sampleReturn (MRInner.Pending 7) [1] [2, 3]).2.2.1,
   (C2_oneshot sampleReturn (MRInner.Pending 7) [1] [2, 3]).2.2.2 (by decide)⟩

/-! ## C4: filter matching fires once, re-registration controlled by result -/

/-- Does this event record an invocation of the filter entry with token `t`? -/
def isFilterCbFor {R : Type} (t : Nat) : Event R → Bool
  | Event.filterCb e _ => e.token == t
  | _ => false

theorem removeMatching_split (pre post : List FilterEntry) (ff : FilterEntry)
    (m : Message) (hpre : ∀ e ∈ pre, e.rule m = false)
    (hm : ff.rule m = true) :
    removeMatching (pre ++ ff :: post) m = some (ff, pre ++ post) := by
  induction pre with
  | nil => simp [removeMatching, hm]
  | cons a rest ih =>
    have ha : a.rule m = false := hpre a (List.mem_cons_self _ _)
    have ih2 := ih (fun e he => hpre e (List.mem_cons_of_mem _ he))
    simp [removeMatching, ha, ih2]

theorem removeMatching_subset {l : List FilterEntry} {m : Message}
    {e : FilterEntry} {rest : List FilterEntry}
    (h : removeMatching l m = some (e, rest)) :
    e ∈ l ∧ ∀ x ∈ rest, x ∈ l := by
  induction l generalizing rest with
  | nil => simp [removeMatching] at h
  | cons a tl ih =>
    by_cases ha : a.rule m
    · simp [removeMatching, ha] at h
      obtain ⟨he, hrest⟩ := h
      subst he
      refine ⟨List.mem_cons_self _ _, ?_⟩
      intro x hx
      rw [← hrest] at hx
      exact List.mem_cons_of_mem _ hx
    · cases hr : removeMatching tl m with
      | none => simp [removeMatching, ha, hr] at h
      | some p =>
        obtain ⟨e2, r2⟩ := p
        simp [removeMatching, ha, hr] at h
        obtain ⟨he, hrest⟩ := h
        subst he
        obtain ⟨hmem, hsub⟩ := ih hr
        refine ⟨List.mem_cons_of_mem _ hmem, ?_⟩
        intro x hx
        rw [← hrest] at hx
        rcases List.mem_cons.mp hx with h2 | h2
        · exact h2 ▸ List.mem_cons_self _ _
        · exact List.mem_cons_of_mem _ (hsub x h2)

theorem insertByToken_mem {l : List FilterEntry} {e x : FilterEntry}
    (h : x ∈ insertByToken l e) : x ∈ l ∨ x = e := by
  induction l with
  | nil =>
    simp [insertByToken] at h
    exact Or.inr h
  | cons a tl ih =>
    by_cases hc : e.token < a.token
    · simp [insertByToken, hc] at h
      rcases h with h | h | h
      · exact Or.inr h
      · exact Or.inl (by simp [h])
      · exact Or.inl (List.mem_cons_of_mem _ h)
    · simp [insertByToken, hc] at h
      rcases h with h | h
      · exact Or.inl (by simp [h])
      · rcases ih h with h2 | h2
        · exact Or.inl (List.mem_cons_of_mem _ h2)
        · exact Or.inr h2

theorem process_filters_token_free {R : Type} (c : Conn R) (m : Message)
    (t : Nat) (h : ∀ e ∈ c.filters.list, e.token ≠ t) :
    (∀ ev ∈ (process_filters c m).2, isFilterCbFor t ev = false)
    ∧ ∀ e ∈ (process_filters c m).1.filters.list, e.token ≠ t := by
  cases hr : removeMatching c.filters.list m with
  | none =>
    cases hd : default_reply m with
    | none =>
      refine ⟨?_, ?_⟩
      · intro ev hev; simp [process_filters, hr, hd] at hev
      · intro e he
        simp [process_filters, hr, hd] at he
        exact h e he
    | some reply =>
      refine ⟨?_, ?_⟩
      · intro ev hev
        simp [process_filters, hr, hd] at hev
        subst hev; rfl
      · intro e he
        simp [process_filters, hr, hd] at he
        exact h e he
  | some p =>
    obtain ⟨ff, rest⟩ := p
    obtain ⟨hffmem, hsub⟩ := removeMatching_subset hr
    have hfft : ff.token ≠ t := h ff hffmem
    by_cases hcb : ff.cb m
    · refine ⟨?_, ?_⟩
      · intro ev hev
        simp [process_filters, hr, hcb] at hev
        subst hev
        simp [isFilterCbFor, hfft]
      · intro e he
        simp [process_filters, hr, hcb] at he
        rcases insertByToken_mem he with h2 | h2
        · exact h e (hsub e h2)
        · subst h2; exact hfft
    · refine ⟨?_, ?_⟩
      · intro ev hev
        simp [process_filters, hr, hcb] at hev
        subst hev
        simp [isFilterCbFor, hfft]
      · intro e he
        simp [process_filters, hr, hcb] at he
        exact h e (hsub e he)

theorem process_one_token_free {R : Type} (c : Conn R) (m : Message) (t : Nat)
    (h : ∀ e ∈ c.filters.list, e.token ≠ t) :
    (∀ ev ∈ (process_one c m).2, isFilterCbFor t ev = false)
    ∧ ∀ e ∈ (process_one c m).1.filters.list, e.token ≠ t := by
  cases hs : m.get_reply_serial with
  | none => simpa [process_one, hs] using process_filters_token_free c m t h
  | some s =>
    cases hrr : repliesRemove c.replies s with
    | none =>
      simpa [process_one, hs, hrr] using process_filters_token_free c m t h
    | some p =>
      obtain ⟨f, rest⟩ := p
      refine ⟨?_, ?_⟩
      · intro ev hev
        simp [process_one, hs, hrr] at hev
        subst hev; rfl
      · intro e he
        simp [process_one, hs, hrr] at he
        exact h e he

theorem processList_token_free {R : Type} (c : Conn R) (msgs : List Message)
    (t : Nat) (h : ∀ e ∈ c.filters.list, e.token ≠ t) :
    ∀ ev ∈ (processList c msgs).2, isFilterCbFor t ev = false := by
  induction msgs generalizing c with
  | nil => intro ev hev; simp [processList] at hev
  | cons m rest ih =>
    intro ev hev
    simp only [processList] at hev
    rw [List.mem_append] at hev
    rcases hev with h1 | h2
    · exact (process_one_token_free c m t h).1 ev h1
    · exact ih (process_one c m).1 (process_one_token_free c m t h).2 ev h2

/-- C4: when a message reaches filter matching (no reply-table hit), the
first filter entry whose rule matches is removed, its callback is invoked
exactly once with the message (the single recorded event), and the entry is
re-inserted under its own token iff the callback returned `true` (otherwise
the table is just the remainder); the reply table and channel are untouched
either way.  Consequently, a filter callback that returned `false` — tokens
being unique — is never invoked again for any sequence of subsequent
messages, while one that returned `true` remains registered. -/
theorem C4_filter_dispatch {R : Type} (c : Conn R) (msg : Message)
    (ff : FilterEntry) (pre post : List FilterEntry)
    (hnorep : ∀ s, msg.replySerial = some s → repliesRemove c.replies s = none)
    (hsplit : c.filters.list = pre ++ ff :: post)
    (hpre : ∀ e ∈ pre, e.rule msg = false)
    (hmatch : ff.rule msg = true) :
    process_one c msg =
      (if ff.cb msg then
        { c with filters := { c.filters with
            list := insertByToken (pre ++ post) ff } }
       else
        { c with filters := { c.filters with list := pre ++ post } },
       [Event.filterCb ff msg])
    ∧ (ff.cb msg = false →
       (∀ e ∈ pre, e.token ≠ ff.token) →
       (∀ e ∈ post, e.token ≠ ff.token) →
       ∀ msgs : List Message,
         ∀ ev ∈ (processList (process_one c msg).1 msgs).2,
           isFilterCbFor ff.token ev = false) := by
  have hrm : removeMatching c.filters.list msg = some (ff, pre ++ post) := by
    rw [hsplit]; exact removeMatching_split pre post ff msg hpre hmatch
  have hpo : process_one c msg =
      (if ff.cb msg then
        { c with filters := { c.filters with
            list := insertByToken (pre ++ post) ff } }
       else
        { c with filters := { c.filters with list := pre ++ post } },
       [Event.filterCb ff msg]) := by
    have hpf : process_filters c msg =
        (if ff.cb msg then
          { c with filters := { c.filters with
              list := insertByToken (pre ++ post) ff } }
         else
          { c with filters := { c.filters with list := pre ++ post } },
         [Event.filterCb ff msg]) := by
      by_cases hcb : ff.cb msg <;> simp [process_filters, hrm, hcb]
    cases hs : msg.get_reply_serial with
    | none => simp [process_one, hs, hpf]
    | some s =>
      have hn := hnorep s hs
      simp [process_one, hs, hn, hpf]
  refine ⟨hpo, ?_⟩
  intro hcb htpre htpost msgs
  have hlist : (process_one c msg).1.filters.list = pre ++ post := by
    rw [hpo]; simp [hcb]
  refine processList_token_free _ msgs ff.token ?_
  intro e he
  rw [hlist] at he
  rcases List.mem_append.mp he with h1 | h1
  · exact htpre e h1
  · exact htpost e h1

/-- A filter entry whose rule never matches, used by witnesses. -/
def sampleFilterNo : FilterEntry :=
  { token := 0, rule := fun _ => false, cb := fun _ => true }

/-- A filter entry matching everything whose callback asks for removal,
used by witnesses. -/
def sampleFilterYes : FilterEntry :=
  { token := 1, rule := fun _ => true, cb := fun _ => false }

/-- A sample connection carrying the two filters above. -/
def sampleFilterConn : Conn Nat :=
  { channel := ⟨true, 1, [], [], none⟩,
    filters := ⟨[sampleFilterNo, sampleFilterYes], 2⟩, replies := [],
    timeout_maker := none }

/-- Witness for C4: the second filter matches, fires once, returns `false`,
is not re-inserted, and never fires again on a further message. -/
theorem C4_filter_dispatch_witness :
    process_one sampleFilterConn sampleCall =
      (if sampleFilterYes.cb sampleCall then
        { sampleFilterConn with filters := { sampleFilterConn.filters with
            list := insertByToken ([sampleFilterNo] ++ []) sampleFilterYes } }
       else
        { sampleFilterConn with filters := { sampleFilterConn.filters with
            list := [sampleFilterNo] ++ [] } },
       [Event.filterCb sampleFilterYes sampleCall])
    ∧ (∀ ev ∈ (processList (process_one sampleFilterConn sampleCall).1
          [sampleCall]).2,
        isFilterCbFor sampleFilterYes.token ev = false) :=
  ⟨(C4_filter_dispatch sampleFilterConn sampleCall sampleFilterYes
      [sampleFilterNo] [] (by intro s h; cases h) rfl (by decide) rfl).1,
   (C4_filter_dispatch sampleFilterConn sampleCall sampleFilterYes
      [sampleFilterNo] [] (by intro s h; cases h) rfl (by decide) rfl).2
     rfl (by decide) (by decide) [sampleCall]⟩
